import Mathlib

/-!
# Verification of the growth-curves core (script.js)

Shallow embedding of the percentile interpolator (`calculatePercentile`) and
the point-store operations (`plotPoint`, `savePoint`, `deletePoint`,
`clearAllPoints`) of `src/script.js`, with theorems settling the spec claims.

Numbers are modelled as `ℚ` (exact arithmetic); a `NaN` input from
`parseFloat` is modelled as `none : Option ℚ`.  JavaScript `Math.round` is
`⌊x + 1/2⌋` (round half toward positive infinity).
-/

/-- The two reference standards (`who_cdc` | `hk2020`), script.js line 505. -/
inductive Standard
  | who_cdc
  | hk2020
deriving DecidableEq

/-- Genders of the dataset (`boy` | `girl`). -/
inductive Gender
  | boy
  | girl
deriving DecidableEq

/-- A `GrowthSeries` (spec section 3): an age table `age : ℕ → ℚ` of length
`numAges` (months), and per percentile-label height curves
`height lbl i = data.percentiles[lbl][i]`.  Total functions model in-bounds
array access of the loaded JSON data. -/
structure GrowthSeries where
  numAges : ℕ
  age : ℕ → ℚ
  height : String → ℕ → ℚ

/-- The loaded `growthData`: standard → gender → series. -/
abbrev GrowthData := Standard → Gender → GrowthSeries

/-- The ordered percentile label/value pairs of script.js lines 505-511. -/
def percList : Standard → List (String × ℚ)
  | Standard.who_cdc =>
      [("p3", 3), ("p10", 10), ("p25", 25), ("p50", 50), ("p75", 75),
       ("p90", 90), ("p97", 97)]
  | Standard.hk2020 =>
      [("p0_4", 0.4), ("p2", 2), ("p9", 9), ("p25", 25), ("p50", 50),
       ("p75", 75), ("p91", 91), ("p98", 98), ("p99_6", 99.6)]

/-- Lowest percentile value of a standard (3 resp. 0.4). -/
def lowestVal : Standard → ℚ
  | Standard.who_cdc => 3
  | Standard.hk2020 => 0.4

/-- Highest percentile value of a standard (97 resp. 99.6). -/
def highestVal : Standard → ℚ
  | Standard.who_cdc => 97
  | Standard.hk2020 => 99.6

/-- How JavaScript prints the lowest percentile value inside a template
string (`3` resp. `0.4`). -/
def lowLabel : Standard → String
  | Standard.who_cdc => "3"
  | Standard.hk2020 => "0.4"

/-- How JavaScript prints the highest percentile value (`97` resp. `99.6`). -/
def highLabel : Standard → String
  | Standard.who_cdc => "97"
  | Standard.hk2020 => "99.6"

/-- The bracket-search loop of script.js lines 493-499: scan
`i = 0 .. numAges-2` for the first `i` with
`ages[i] <= ageMonths <= ages[i+1]`; the fuel argument counts the remaining
iterations.  When the loop completes without a match, `lowerIndex`/`upperIndex`
keep their initial values `(0, numAges - 1)`. -/
def bracketAux (s : GrowthSeries) (ageMonths : ℚ) : ℕ → ℕ → ℕ × ℕ
  | 0, _ => (0, s.numAges - 1)
  | k + 1, i =>
    if s.age i ≤ ageMonths ∧ ageMonths ≤ s.age (i + 1) then (i, i + 1)
    else bracketAux s ageMonths k (i + 1)

/-- The bracket `(lowerIndex, upperIndex)` selected for `ageMonths`
(script.js lines 490-499). -/
def findBracket (s : GrowthSeries) (ageMonths : ℚ) : ℕ × ℕ :=
  bracketAux s ageMonths (s.numAges - 1) 0

/-- `ageFactor` of script.js line 502: `0` when the two indices coincide,
otherwise the linear position of `ageMonths` inside the bracket. -/
def ageFactorOf (s : GrowthSeries) (lo hi : ℕ) (am : ℚ) : ℚ :=
  if hi = lo then 0 else (am - s.age lo) / (s.age hi - s.age lo)

/-- `interpolatedHeight` of script.js line 516: linear interpolation of the
curve `lbl` between the bracket indices at position `af`. -/
def interpH (s : GrowthSeries) (lo hi : ℕ) (af : ℚ) (lbl : String) : ℚ :=
  s.height lbl lo + af * (s.height lbl hi - s.height lbl lo)

/-- `Math.round` of JavaScript on an exact rational: round half up. -/
def jsRound (q : ℚ) : ℤ := ⌊q + 1 / 2⌋

/-- `Math.round(x * 10) / 10` of script.js line 530. -/
def roundTenth (q : ℚ) : ℚ := (jsRound (q * 10) : ℚ) / 10

/-- Structured result of `calculatePercentile`: below the lowest curve
(`<...`), an interpolated numeric percentile, or above the highest curve
(`>...`). -/
inductive PRes
  | below
  | value (q : ℚ)
  | above
deriving DecidableEq

/-- The scan loop of script.js lines 513-532 over the ordered label/value
pairs.  The `Option` argument is the previous pair: `none` exactly when
`i === 0`.  The first curve whose interpolated height is `>= height` decides
the result; falling off the end returns `above` (line 534). -/
def scanAux (s : GrowthSeries) (lo hi : ℕ) (af h : ℚ) :
    List (String × ℚ) → Option (String × ℚ) → PRes
  | [], _ => PRes.above
  | (lbl, v) :: rest, none =>
    if h ≤ interpH s lo hi af lbl then PRes.below
    else scanAux s lo hi af h rest (some (lbl, v))
  | (lbl, v) :: rest, some (plbl, pv) =>
    if h ≤ interpH s lo hi af lbl then
      PRes.value (roundTenth (pv +
        (h - interpH s lo hi af plbl) /
          (interpH s lo hi af lbl - interpH s lo hi af plbl) * (v - pv)))
    else scanAux s lo hi af h rest (some (lbl, v))

/-- `calculatePercentile` of script.js lines 486-535, structured result. -/
def calcPercentileR (ds : GrowthData) (std : Standard) (g : Gender)
    (ageMonths h : ℚ) : PRes :=
  let s := ds std g
  let b := findBracket s ageMonths
  let af := ageFactorOf s b.1 b.2 ageMonths
  scanAux s b.1 b.2 af h (percList std) none

/-- JavaScript printing of the rounded percentile `q = t/10`: one decimal
digit unless the value is an integer (template-string stringification of
`Math.round(e*10)/10`). -/
def renderNum (q : ℚ) : String :=
  let t : ℤ := (q * 10).num
  if t % 10 = 0 then toString (t / 10)
  else toString (t / 10) ++ "." ++ toString (t % 10).natAbs

/-- The string actually returned by `calculatePercentile`. -/
def renderPRes (std : Standard) : PRes → String
  | PRes.below => "<" ++ lowLabel std ++ "th"
  | PRes.above => ">" ++ highLabel std ++ "th"
  | PRes.value q => renderNum q ++ "th"

/-- `calculatePercentile` of script.js lines 486-535 (string result). -/
def calculatePercentile (ds : GrowthData) (std : Standard) (g : Gender)
    (ageMonths h : ℚ) : String :=
  renderPRes std (calcPercentileR ds std g ageMonths h)

/-- Interpolated height of one named curve at `ageMonths`, using the same
bracket and `ageFactor` as `calculatePercentile`. -/
def interpAtAge (s : GrowthSeries) (am : ℚ) (lbl : String) : ℚ :=
  let b := findBracket s am
  interpH s b.1 b.2 (ageFactorOf s b.1 b.2 am) lbl

/-- The denominator check of script.js line 527 along the scan: `true` iff,
at the branch the scan actually takes, the divisor
`interpolatedHeight - prevInterpolatedHeight` is nonzero (so the JavaScript
division is finite). -/
def scanDenomOK (s : GrowthSeries) (lo hi : ℕ) (af h : ℚ) :
    List (String × ℚ) → Option (String × ℚ) → Bool
  | [], _ => true
  | (lbl, v) :: rest, none =>
    if h ≤ interpH s lo hi af lbl then true
    else scanDenomOK s lo hi af h rest (some (lbl, v))
  | (lbl, v) :: rest, some (plbl, _) =>
    if h ≤ interpH s lo hi af lbl then
      decide (interpH s lo hi af lbl - interpH s lo hi af plbl ≠ 0)
    else scanDenomOK s lo hi af h rest (some (lbl, v))

/-- Whole-function denominator safety for `calculatePercentile`. -/
def calcDenomOK (ds : GrowthData) (std : Standard) (g : Gender)
    (ageMonths h : ℚ) : Bool :=
  let s := ds std g
  let b := findBracket s ageMonths
  let af := ageFactorOf s b.1 b.2 ageMonths
  scanDenomOK s b.1 b.2 af h (percList std) none

/-- The spec section 3 invariants of one series under one standard: ages
strictly increasing, and at every age index the percentile heights are
non-decreasing along the standard's ordered labels. -/
def seriesInvariants (std : Standard) (s : GrowthSeries) : Prop :=
  (∀ i < s.numAges, i + 1 < s.numAges → s.age i < s.age (i + 1)) ∧
  ∀ j < s.numAges,
    List.Chain' (· ≤ ·) ((percList std).map (fun p => s.height p.1 j))

/-- Strictly increasing age table (part of the section 3 invariant). -/
def agesSorted (s : GrowthSeries) : Prop :=
  ∀ i < s.numAges, i + 1 < s.numAges → s.age i < s.age (i + 1)

/-- Strictly increasing percentile curves at every age index. -/
def strictCurves (std : Standard) (s : GrowthSeries) : Prop :=
  ∀ j < s.numAges,
    List.Chain' (· < ·) ((percList std).map (fun p => s.height p.1 j))

/-- Non-decreasing percentile curves at every age index (the section 3
"monotonic percentile curves" invariant, as literally stated). -/
def monotoneCurves (std : Standard) (s : GrowthSeries) : Prop :=
  ∀ j < s.numAges,
    List.Chain' (· ≤ ·) ((percList std).map (fun p => s.height p.1 j))

/-- Order on scan results used by the monotonicity claim: `<lowest` is below
every numeric value and `>highest` above every numeric value. -/
def presLE : PRes → PRes → Bool
  | PRes.below, _ => true
  | _, PRes.above => true
  | PRes.value a, PRes.value b => decide (a ≤ b)
  | _, _ => false

/-- Bounds predicate on a scan result: a numeric value must lie within
`[low, high]`. -/
def resInBounds (low high : ℚ) : PRes → Prop
  | PRes.below => True
  | PRes.above => True
  | PRes.value q => low ≤ q ∧ q ≤ high

/-! ## Point store (script.js lines 328-444) -/

/-- A `MeasurementPoint` created by `plotPoint` (script.js lines 364-373). -/
structure MeasurementPoint where
  id : ℤ
  label : Option String
  standard : Standard
  gender : Gender
  age : ℚ
  height : ℚ
  percentile : String
  date : String
deriving DecidableEq

/-- The mutable module state: `savedDataPoints`, `currentPlotPoint`, and the
`localStorage` copy written by `saveSavedPoints`. -/
structure StoreState where
  savedDataPoints : List MeasurementPoint
  currentPlotPoint : Option MeasurementPoint
  storedPoints : List MeasurementPoint
deriving DecidableEq

/-- The point record built by `plotPoint` on valid input (script.js lines
364-373); `id` is `Date.now()` passed in, `label || null` keeps a nonempty
trimmed label. -/
def mkMeasurement (ds : GrowthData) (std : Standard) (g : Gender)
    (ageYears heightIn : ℚ) (label : String) (newId : ℤ) (date : String) :
    MeasurementPoint :=
  { id := newId
    label := if label = "" then none else some label
    standard := std
    gender := g
    age := ageYears
    height := heightIn
    percentile := calculatePercentile ds std g (ageYears * 12) heightIn
    date := date }

/-- `plotPoint` (script.js lines 328-381).  `none` age/height models a `NaN`
from `parseFloat`; validation rejects with no state change (`(st, none)`),
otherwise the fresh point replaces `currentPlotPoint` and is returned. -/
def plotPoint (ds : GrowthData) (st : StoreState) (std : Standard) (g : Gender)
    (ageYears heightIn : Option ℚ) (label : String) (newId : ℤ)
    (date : String) : StoreState × Option MeasurementPoint :=
  match ageYears, heightIn with
  | some a, some h =>
    if a < 0 ∨ 18 < a then (st, none)
    else if h < 30 ∨ 200 < h then (st, none)
    else
      let p := mkMeasurement ds std g a h label newId date
      ({ st with currentPlotPoint := some p }, some p)
  | _, _ => (st, none)

/-- `savePoint` (script.js lines 386-409): error (`none`) and no mutation if
no current point; otherwise append a copy, clear the current point, persist,
and return the saved point. -/
def savePoint (st : StoreState) : StoreState × Option MeasurementPoint :=
  match st.currentPlotPoint with
  | none => (st, none)
  | some p =>
    ({ savedDataPoints := st.savedDataPoints ++ [p]
       currentPlotPoint := none
       storedPoints := st.savedDataPoints ++ [p] }, some p)

/-- `deletePoint` (script.js lines 414-425): filter out the matching id and
persist the result. -/
def deletePoint (st : StoreState) (pointId : ℤ) : StoreState :=
  let newSaved := st.savedDataPoints.filter (fun p => p.id != pointId)
  { savedDataPoints := newSaved
    currentPlotPoint := st.currentPlotPoint
    storedPoints := newSaved }

/-- `clearAllPoints` (script.js lines 430-444): early no-op (with an error
message) when nothing is saved, otherwise clear everything when the `confirm`
dialog is accepted. -/
def clearAllPoints (st : StoreState) (confirmed : Bool) : StoreState :=
  if st.savedDataPoints.length = 0 then st
  else if confirmed then
    { savedDataPoints := []
      currentPlotPoint := none
      storedPoints := [] }
  else st


/-! ## Example data for counterexamples and witnesses -/

/-- Height table that satisfies the section 3 invariants as literally stated
(non-decreasing across labels) but has `p25 = p50`. -/
def exHeights : String → ℚ
  | "p0_4" => 30
  | "p2" => 35
  | "p3" => 40
  | "p9" => 45
  | "p10" => 50
  | "p25" => 60
  | "p50" => 60
  | "p75" => 70
  | "p90" => 80
  | "p91" => 81
  | "p97" => 90
  | "p98" => 91
  | "p99_6" => 95
  | _ => 0

/-- Two-age series (0 and 12 months), heights constant in age. -/
def exSeries : GrowthSeries :=
  { numAges := 2
    age := fun i => if i = 0 then 0 else 12
    height := fun lbl _ => exHeights lbl }

/-- Dataset whose every series is `exSeries`. -/
def exDS : GrowthData := fun _ _ => exSeries

/-- Strictly increasing height table (strict version of the invariant). -/
def exHeights2 : String → ℚ
  | "p0_4" => 35
  | "p2" => 38
  | "p3" => 40
  | "p9" => 45
  | "p10" => 50
  | "p25" => 55
  | "p50" => 60
  | "p75" => 65
  | "p90" => 70
  | "p91" => 72
  | "p97" => 75
  | "p98" => 78
  | "p99_6" => 82
  | _ => 0

/-- Two-age series with strictly increasing curves. -/
def exSeries2 : GrowthSeries :=
  { numAges := 2
    age := fun i => if i = 0 then 0 else 12
    height := fun lbl _ => exHeights2 lbl }

/-- Dataset whose every series is `exSeries2`. -/
def exDS2 : GrowthData := fun _ _ => exSeries2

/-- Three-age series (ages 0, 12, 24 months) used to exhibit the
bracket-search fallback. -/
def exSeries3 : GrowthSeries :=
  { numAges := 3
    age := fun i => if i = 0 then 0 else if i = 1 then 12 else 24
    height := fun _ _ => 0 }

/-- A sample saved measurement point. -/
def pEx : MeasurementPoint :=
  { id := 7
    label := none
    standard := Standard.who_cdc
    gender := Gender.boy
    age := 3
    height := 95
    percentile := "50th"
    date := "2026-01-02" }

/-- The empty store state. -/
def st0 : StoreState :=
  { savedDataPoints := [], currentPlotPoint := none, storedPoints := [] }

/-- A state with no saved points but a dangling current point. -/
def stCur : StoreState :=
  { savedDataPoints := [], currentPlotPoint := some pEx, storedPoints := [] }

/-- A state with one saved point and a current point. -/
def stOne : StoreState :=
  { savedDataPoints := [pEx], currentPlotPoint := some pEx, storedPoints := [pEx] }

/-- A state with one saved point and no current point. -/
def stDel : StoreState :=
  { savedDataPoints := [pEx], currentPlotPoint := none, storedPoints := [pEx] }

/-- Invariant carried by the scan: the previous curve (if any) lies strictly
below the query height. -/
def prevBelow (s : GrowthSeries) (lo hi : ℕ) (af h : ℚ) :
    Option (String × ℚ) → Prop
  | none => True
  | some (pl, _) => interpH s lo hi af pl < h

/-- Invariant carried by the scan: the previous percentile value (if any) is
at most every remaining percentile value. -/
def prevLEList : Option (String × ℚ) → List (String × ℚ) → Prop
  | none, _ => True
  | some (_, pv), L => ∀ q ∈ L, pv ≤ q.2

/-- Invariant carried by the scan: the previous percentile value (if any)
lies within the standard's value range. -/
def prevInRange (low high : ℚ) : Option (String × ℚ) → Prop
  | none => True
  | some (_, pv) => low ≤ pv ∧ pv ≤ high

/-! ## Bracket-search lemmas -/

/-- If some bracket in the scanned range contains `am`, the loop returns the
first such bracket `(j, j + 1)`. -/
lemma bracketAux_found (s : GrowthSeries) (am : ℚ) :
    ∀ k i, 1 ≤ k → s.age i ≤ am → am ≤ s.age (i + k) →
      ∃ j, i ≤ j ∧ j + 1 ≤ i + k ∧ bracketAux s am k i = (j, j + 1) ∧
        s.age j ≤ am ∧ am ≤ s.age (j + 1) := by
  intro k
  induction k with
  | zero => intro i hk; exact absurd hk (by omega)
  | succ k ih =>
    intro i _ hlo hhi
    by_cases hc : s.age i ≤ am ∧ am ≤ s.age (i + 1)
    · refine ⟨i, le_rfl, by omega, ?_, hc.1, hc.2⟩
      simp only [bracketAux]
      rw [if_pos hc]
    · rcases Nat.eq_zero_or_pos k with rfl | hkpos
      · exact absurd ⟨hlo, hhi⟩ hc
      · have hup : s.age (i + 1) ≤ am := by
          by_contra hx
          exact hc ⟨hlo, le_of_not_le hx⟩
        have hhi' : am ≤ s.age (i + 1 + k) := by
          have e : i + 1 + k = i + (k + 1) := by omega
          rw [e]; exact hhi
        obtain ⟨j, hj1, hj2, hj3, hj4, hj5⟩ := ih (i + 1) hkpos hup hhi'
        refine ⟨j, by omega, by omega, ?_, hj4, hj5⟩
        simp only [bracketAux]
        rw [if_neg hc]
        exact hj3

/-- If every scanned bracket fails, the loop falls through and keeps the
initial indices `(0, numAges - 1)`. -/
lemma bracketAux_nomatch (s : GrowthSeries) (am : ℚ) :
    ∀ k i, (∀ j, i ≤ j → j < i + k → ¬(s.age j ≤ am ∧ am ≤ s.age (j + 1))) →
      bracketAux s am k i = (0, s.numAges - 1) := by
  intro k
  induction k with
  | zero => intro i _; rfl
  | succ k ih =>
    intro i hall
    have hc : ¬(s.age i ≤ am ∧ am ≤ s.age (i + 1)) := hall i le_rfl (by omega)
    simp only [bracketAux]
    rw [if_neg hc]
    exact ih (i + 1) (fun j hj1 hj2 => hall j (by omega) (by omega))

/-- Claim C4 counterexample: on a three-age series with ages 0, 12, 24
months, an age below the first age (and one past the last) leaves the
bracket at the full range `(0, 2)` — neither the claimed `[0, 1]` default nor
the claimed last bracket `[1, 2]`. -/
theorem findBracket_fallback_cex :
    exSeries3.numAges = 3 ∧ (-1 : ℚ) < exSeries3.age 0 ∧
    exSeries3.age 2 < 100 ∧
    findBracket exSeries3 (-1) = (0, 2) ∧ ((0, 2) : ℕ × ℕ) ≠ (0, 1) ∧
    findBracket exSeries3 100 = (0, 2) ∧ ((0, 2) : ℕ × ℕ) ≠ (1, 2) := by
  decide

/-- Claim C4 (amended): when no pair of adjacent ages brackets `ageMonths`,
`calculatePercentile`'s bracket search keeps the initial indices
`lowerIndex = 0`, `upperIndex = numAges - 1` (the full range) — both below
the first age and past the last. -/
theorem findBracket_fallback_amended (s : GrowthSeries) (am : ℚ)
    (hnone : ∀ i < s.numAges, i + 1 < s.numAges →
      ¬(s.age i ≤ am ∧ am ≤ s.age (i + 1))) :
    findBracket s am = (0, s.numAges - 1) := by
  have h := bracketAux_nomatch s am (s.numAges - 1) 0
    (fun j hj1 hj2 => hnone j (by omega) (by omega))
  simpa [findBracket] using h

/-- Witness for the amended Claim C4 at a concrete out-of-range age. -/
theorem findBracket_fallback_amended_witness :
    findBracket exSeries3 (-1) = (0, exSeries3.numAges - 1) :=
  findBracket_fallback_amended exSeries3 (-1) (by decide)

/-! ## Point-store theorems -/

/-- Claim C7 counterexample: with `savedPoints` empty and a current point
set, `clearAllPoints` returns early and leaves `currentPlotPoint` set, so it
does not unset the current point on every state. -/
theorem clearAllPoints_cex :
    clearAllPoints stCur true = stCur ∧ stCur.currentPlotPoint ≠ none := by
  exact ⟨rfl, by simp [stCur]⟩

/-- Claim C7 (amended): when `savedPoints` is nonempty and the confirmation
dialog is accepted, `clearAllPoints` empties `savedPoints`, unsets
`currentPoint` and persists the empty sequence; when `savedPoints` is already
empty it is an early-returning no-op that leaves all state (including a set
`currentPoint`) unchanged. -/
theorem clearAllPoints_amended (st : StoreState) :
    (st.savedDataPoints ≠ [] → clearAllPoints st true = st0) ∧
    (st.savedDataPoints = [] →
      clearAllPoints st true = st ∧ clearAllPoints st false = st) := by
  constructor
  · intro hne
    have hl : ¬ st.savedDataPoints.length = 0 := by
      simpa [List.length_eq_zero] using hne
    simp [clearAllPoints, hl, st0]
  · intro he
    simp [clearAllPoints, he]

/-- Witness for the amended Claim C7: a nonempty store is fully cleared. -/
theorem clearAllPoints_amended_witness : clearAllPoints stOne true = st0 :=
  (clearAllPoints_amended stOne).1 (by simp [stOne])

/-- Claim C8: deleting an id that matches no saved point leaves
`savedPoints` unchanged, raises no error, and deleting the same id twice
equals deleting it once. -/
theorem deletePoint_absent (st : StoreState) (pointId : ℤ)
    (habs : ∀ p ∈ st.savedDataPoints, p.id ≠ pointId) :
    (deletePoint st pointId).savedDataPoints = st.savedDataPoints ∧
    deletePoint (deletePoint st pointId) pointId = deletePoint st pointId := by
  have hfix : st.savedDataPoints.filter (fun p => p.id != pointId) =
      st.savedDataPoints := by
    apply List.filter_eq_self.mpr
    intro a ha
    simpa using habs a ha
  constructor
  · simp [deletePoint, hfix]
  · simp [deletePoint, hfix]

/-- Witness for Claim C8 at a concrete store and absent id. -/
theorem deletePoint_absent_witness :
    (deletePoint stDel 99).savedDataPoints = stDel.savedDataPoints ∧
    deletePoint (deletePoint stDel 99) 99 = deletePoint stDel 99 :=
  deletePoint_absent stDel 99 (by decide)

/-- Claim C9: `plotPoint` never writes `savedDataPoints` (nor the persisted
copy), on any state and any input, valid or invalid. -/
theorem plotPoint_frame (ds : GrowthData) (st : StoreState) (std : Standard)
    (g : Gender) (ageYears heightIn : Option ℚ) (label : String) (newId : ℤ)
    (date : String) :
    (plotPoint ds st std g ageYears heightIn label newId date).1.savedDataPoints =
      st.savedDataPoints ∧
    (plotPoint ds st std g ageYears heightIn label newId date).1.storedPoints =
      st.storedPoints := by
  rcases ageYears with _ | a
  · exact ⟨rfl, rfl⟩
  rcases heightIn with _ | h
  · exact ⟨rfl, rfl⟩
  simp only [plotPoint]
  split_ifs <;> exact ⟨rfl, rfl⟩

/-- Claim C5: `savePoint` fails (`none`) and mutates nothing when there is no
current point; otherwise it appends the current point to `savedDataPoints`,
clears the current point, persists, and returns it — in particular a
successful `plotPoint` followed by `savePoint` appends exactly that one
point, with the same age, height and percentile. -/
theorem savePoint_spec (st : StoreState) :
    (st.currentPlotPoint = none → savePoint st = (st, none)) ∧
    (∀ p, st.currentPlotPoint = some p →
      savePoint st =
        ({ savedDataPoints := st.savedDataPoints ++ [p], currentPlotPoint := none, storedPoints := st.savedDataPoints ++ [p] }, some p)) ∧
    (∀ ds std g a h label newId date st1 p,
      plotPoint ds st std g (some a) (some h) label newId date = (st1, some p) →
      savePoint st1 =
        ({ savedDataPoints := st.savedDataPoints ++ [p], currentPlotPoint := none, storedPoints := st.savedDataPoints ++ [p] }, some p) ∧
      p.age = a ∧ p.height = h ∧
      p.percentile = calculatePercentile ds std g (a * 12) h) := by
  refine ⟨?_, ?_, ?_⟩
  · intro hn; simp [savePoint, hn]
  · intro p hp; simp [savePoint, hp]
  · intro ds std g a h label newId date st1 p hp
    simp only [plotPoint] at hp
    split_ifs at hp
    · simp at hp
    · simp at hp
    · rw [Prod.mk.injEq, Option.some.injEq] at hp
      obtain ⟨hst1, hpe⟩ := hp
      subst hst1
      subst hpe
      exact ⟨rfl, rfl, rfl, rfl⟩

/-- Witness for Claim C5: saving a pending current point on a concrete
state. -/
theorem savePoint_spec_witness :
    savePoint stCur = (stDel, some pEx) :=
  (savePoint_spec stCur).2.1 pEx rfl

/-- Claim C6: `plotPoint` rejects non-numeric input, ages outside `[0, 18]`
and heights outside `[30, 200]` with no state change; on valid input it
stores a fresh point (with the supplied id) as the current point, replacing
any prior one.  Age 19 in particular is rejected. -/
theorem plotPoint_validation (ds : GrowthData) (st : StoreState)
    (std : Standard) (g : Gender) (label : String) (newId : ℤ)
    (date : String) :
    (∀ hO, plotPoint ds st std g none hO label newId date = (st, none)) ∧
    (∀ aO, plotPoint ds st std g aO none label newId date = (st, none)) ∧
    (∀ a h : ℚ, a < 0 ∨ 18 < a →
      plotPoint ds st std g (some a) (some h) label newId date = (st, none)) ∧
    (∀ a h : ℚ, 0 ≤ a → a ≤ 18 → h < 30 ∨ 200 < h →
      plotPoint ds st std g (some a) (some h) label newId date = (st, none)) ∧
    (∀ a h : ℚ, 0 ≤ a → a ≤ 18 → 30 ≤ h → h ≤ 200 →
      plotPoint ds st std g (some a) (some h) label newId date =
        ({ st with currentPlotPoint := some (mkMeasurement ds std g a h label newId date) }, some (mkMeasurement ds std g a h label newId date))) ∧
    (∀ h : ℚ, plotPoint ds st std g (some 19) (some h) label newId date =
      (st, none)) := by
  refine ⟨?_, ?_, ?_, ?_, ?_, ?_⟩
  · intro hO; rcases hO with _ | h <;> rfl
  · intro aO; rcases aO with _ | a <;> rfl
  · intro a h hc
    simp only [plotPoint]
    rw [if_pos hc]
  · intro a h h1 h2 hc
    have hn : ¬(a < 0 ∨ 18 < a) := by push_neg; exact ⟨h1, h2⟩
    simp only [plotPoint]
    rw [if_neg hn, if_pos hc]
  · intro a h h1 h2 h3 h4
    have hn : ¬(a < 0 ∨ 18 < a) := by push_neg; exact ⟨h1, h2⟩
    have hn2 : ¬(h < 30 ∨ 200 < h) := by push_neg; exact ⟨h3, h4⟩
    simp only [plotPoint]
    rw [if_neg hn, if_neg hn2]
  · intro h
    have hc : (19 : ℚ) < 0 ∨ (18 : ℚ) < 19 := Or.inr (by norm_num)
    simp only [plotPoint]
    rw [if_pos hc]

/-- Witness for Claim C6: age 19 years is rejected with no point created. -/
theorem plotPoint_validation_witness :
    plotPoint exDS st0 Standard.who_cdc Gender.boy (some 19) (some 100) ("")
      1 ("2026-01-03") = (st0, none) :=
  (plotPoint_validation exDS st0 Standard.who_cdc Gender.boy ("") 1
    ("2026-01-03")).2.2.1 19 100 (Or.inr (by norm_num))

/-! ## Rounding lemmas -/

lemma jsRound_mono {a b : ℚ} (h : a ≤ b) : jsRound a ≤ jsRound b :=
  Int.floor_le_floor (by linarith)

lemma jsRound_intCast (k : ℤ) : jsRound (k : ℚ) = k := by
  unfold jsRound
  rw [Int.floor_int_add]
  norm_num

lemma roundTenth_mono {a b : ℚ} (h : a ≤ b) : roundTenth a ≤ roundTenth b := by
  unfold roundTenth
  have hm := jsRound_mono (by linarith : a * 10 ≤ b * 10)
  exact (div_le_div_right (by norm_num : (0:ℚ) < 10)).mpr (by exact_mod_cast hm)

lemma roundTenth_le_int_div {k : ℤ} {x : ℚ} (h : x ≤ (k : ℚ) / 10) :
    roundTenth x ≤ (k : ℚ) / 10 := by
  unfold roundTenth
  have h10 : x * 10 ≤ (k : ℚ) := by linarith
  have h2 : jsRound (x * 10) ≤ k := by
    have hm := jsRound_mono h10
    rwa [jsRound_intCast] at hm
  exact (div_le_div_right (by norm_num : (0:ℚ) < 10)).mpr (by exact_mod_cast h2)

lemma int_div_le_roundTenth {k : ℤ} {x : ℚ} (h : (k : ℚ) / 10 ≤ x) :
    (k : ℚ) / 10 ≤ roundTenth x := by
  unfold roundTenth
  have h10 : (k : ℚ) ≤ x * 10 := by linarith
  have h2 : k ≤ jsRound (x * 10) := by
    have hm := jsRound_mono h10
    rwa [jsRound_intCast] at hm
  exact (div_le_div_right (by norm_num : (0:ℚ) < 10)).mpr (by exact_mod_cast h2)

/-- Strict monotonicity of interpolation across two curves that are strictly
ordered at both bracket indices, for an age factor in `[0, 1]`. -/
lemma interpH_lt (s : GrowthSeries) (lo hi : ℕ) (af : ℚ) (l1 l2 : String)
    (h0 : 0 ≤ af) (h1 : af ≤ 1)
    (hlo : s.height l1 lo < s.height l2 lo)
    (hhi : s.height l1 hi < s.height l2 hi) :
    interpH s lo hi af l1 < interpH s lo hi af l2 := by
  unfold interpH
  rcases lt_or_le af 1 with hlt | hge
  · nlinarith [mul_pos (sub_pos.mpr hlt) (sub_pos.mpr hlo),
      mul_nonneg h0 (sub_pos.mpr hhi).le]
  · have haf : af = 1 := le_antisymm h1 hge
    subst haf
    nlinarith [hhi]

/-! ## Scan-loop lemmas -/

/-- `presLE` with `below` on the left always holds. -/
lemma presLE_below (r : PRes) : presLE PRes.below r = true := by
  cases r <;> rfl

/-- Whenever the scan takes the interpolation branch, the divisor is
strictly positive, provided the carried previous curve lies below `h`. -/
lemma scanDenomOK_true (s : GrowthSeries) (lo hi : ℕ) (af : ℚ) :
    ∀ (L : List (String × ℚ)) (prev : Option (String × ℚ)) (h : ℚ),
      prevBelow s lo hi af h prev →
      scanDenomOK s lo hi af h L prev = true := by
  intro L
  induction L with
  | nil => intro prev h _; rfl
  | cons q rest ih =>
    obtain ⟨lbl, v⟩ := q
    intro prev h hpb
    rcases prev with _ | ⟨pl, pv⟩
    · simp only [scanDenomOK]
      by_cases hle : h ≤ interpH s lo hi af lbl
      · rw [if_pos hle]
      · rw [if_neg hle]
        apply ih (some (lbl, v)) h
        simp only [prevBelow]
        exact not_le.mp hle
    · simp only [prevBelow] at hpb
      simp only [scanDenomOK]
      by_cases hle : h ≤ interpH s lo hi af lbl
      · rw [if_pos hle]
        simp only [decide_eq_true_eq]
        exact sub_ne_zero.mpr (ne_of_gt (lt_of_lt_of_le hpb hle))
      · rw [if_neg hle]
        apply ih (some (lbl, v)) h
        simp only [prevBelow]
        exact not_le.mp hle

/-- If the previous curve lies below `h` and the percentile values are
sorted, the scan's eventual result is at least `roundTenth x` for any
`x` at most the previous percentile value. -/
lemma scanAux_ge (s : GrowthSeries) (lo hi : ℕ) (af : ℚ) :
    ∀ (L : List (String × ℚ)) (pl : String) (pv x h : ℚ),
      interpH s lo hi af pl < h → x ≤ pv →
      (∀ q ∈ L, pv ≤ q.2) →
      List.Pairwise (fun a b : String × ℚ => a.2 ≤ b.2) L →
      presLE (PRes.value (roundTenth x))
        (scanAux s lo hi af h L (some (pl, pv))) = true := by
  intro L
  induction L with
  | nil => intro pl pv x h _ _ _ _; rfl
  | cons q rest ih =>
    obtain ⟨lbl, v⟩ := q
    intro pl pv x h hplh hxpv hmem hpw
    rw [List.pairwise_cons] at hpw
    have hv : pv ≤ v := by simpa using hmem (lbl, v) (List.mem_cons_self _ _)
    simp only [scanAux]
    by_cases hle : h ≤ interpH s lo hi af lbl
    · rw [if_pos hle]
      have hd : 0 < interpH s lo hi af lbl - interpH s lo hi af pl := by linarith
      have hf0 : 0 ≤ (h - interpH s lo hi af pl) /
          (interpH s lo hi af lbl - interpH s lo hi af pl) :=
        div_nonneg (by linarith) hd.le
      have hest : x ≤ pv + (h - interpH s lo hi af pl) /
          (interpH s lo hi af lbl - interpH s lo hi af pl) * (v - pv) := by
        nlinarith [mul_nonneg hf0 (sub_nonneg.mpr hv)]
      simp only [presLE, decide_eq_true_eq]
      exact roundTenth_mono hest
    · rw [if_neg hle]
      exact ih lbl v x h (not_le.mp hle) (le_trans hxpv hv)
        (fun q hq => hpw.1 q hq) hpw.2

/-- Core monotonicity of the scan in the query height. -/
lemma scanAux_mono (s : GrowthSeries) (lo hi : ℕ) (af : ℚ) :
    ∀ (L : List (String × ℚ)) (prev : Option (String × ℚ)) (h1 h2 : ℚ),
      h1 ≤ h2 →
      prevBelow s lo hi af h1 prev →
      prevLEList prev L →
      List.Pairwise (fun a b : String × ℚ => a.2 ≤ b.2) L →
      presLE (scanAux s lo hi af h1 L prev)
        (scanAux s lo hi af h2 L prev) = true := by
  intro L
  induction L with
  | nil =>
    intro prev h1 h2 _ _ _ _
    simp only [scanAux]
    rfl
  | cons q rest ih =>
    obtain ⟨lbl, v⟩ := q
    intro prev h1 h2 h12 hpb hpl hpw
    rw [List.pairwise_cons] at hpw
    rcases prev with _ | ⟨pl, pv⟩
    · simp only [scanAux]
      by_cases c1 : h1 ≤ interpH s lo hi af lbl
      · rw [if_pos c1]
        by_cases c2 : h2 ≤ interpH s lo hi af lbl
        · rw [if_pos c2]; rfl
        · rw [if_neg c2]
          exact presLE_below _
      · have c2 : ¬ h2 ≤ interpH s lo hi af lbl := fun hc => c1 (h12.trans hc)
        rw [if_neg c1, if_neg c2]
        apply ih (some (lbl, v)) h1 h2 h12
        · simp only [prevBelow]
          exact not_le.mp c1
        · simp only [prevLEList]
          exact fun q hq => hpw.1 q hq
        · exact hpw.2
    · simp only [prevBelow] at hpb
      simp only [prevLEList] at hpl
      have hv : pv ≤ v := by simpa using hpl (lbl, v) (List.mem_cons_self _ _)
      simp only [scanAux]
      by_cases c1 : h1 ≤ interpH s lo hi af lbl
      · rw [if_pos c1]
        have hd : 0 < interpH s lo hi af lbl - interpH s lo hi af pl := by
          linarith
        by_cases c2 : h2 ≤ interpH s lo hi af lbl
        · rw [if_pos c2]
          simp only [presLE, decide_eq_true_eq]
          apply roundTenth_mono
          have hdiv : (h1 - interpH s lo hi af pl) /
              (interpH s lo hi af lbl - interpH s lo hi af pl) ≤
              (h2 - interpH s lo hi af pl) /
              (interpH s lo hi af lbl - interpH s lo hi af pl) :=
            (div_le_div_right hd).mpr (by linarith)
          nlinarith [mul_le_mul_of_nonneg_right hdiv (sub_nonneg.mpr hv)]
        · rw [if_neg c2]
          have hf1le : (h1 - interpH s lo hi af pl) /
              (interpH s lo hi af lbl - interpH s lo hi af pl) ≤ 1 :=
            (div_le_one hd).mpr (by linarith)
          have hest1v : pv + (h1 - interpH s lo hi af pl) /
              (interpH s lo hi af lbl - interpH s lo hi af pl) * (v - pv) ≤ v := by
            nlinarith [mul_le_mul_of_nonneg_right hf1le (sub_nonneg.mpr hv)]
          exact scanAux_ge s lo hi af rest lbl v _ h2 (not_le.mp c2) hest1v
            (fun q hq => hpw.1 q hq) hpw.2
      · have c2 : ¬ h2 ≤ interpH s lo hi af lbl := fun hc => c1 (h12.trans hc)
        rw [if_neg c1, if_neg c2]
        apply ih (some (lbl, v)) h1 h2 h12
        · simp only [prevBelow]
          exact not_le.mp c1
        · simp only [prevLEList]
          exact fun q hq => hpw.1 q hq
        · exact hpw.2

/-- The scan's numeric result always lies within `[low, high]` when the
percentile values do (`low`, `high` being integer multiples of a tenth). -/
lemma scanAux_bounds (s : GrowthSeries) (lo hi : ℕ) (af low high : ℚ)
    (kl kh : ℤ) (hkl : low = (kl : ℚ) / 10) (hkh : high = (kh : ℚ) / 10) :
    ∀ (L : List (String × ℚ)) (prev : Option (String × ℚ)) (h : ℚ),
      prevBelow s lo hi af h prev → prevInRange low high prev →
      (∀ q ∈ L, low ≤ q.2 ∧ q.2 ≤ high) →
      resInBounds low high (scanAux s lo hi af h L prev) := by
  intro L
  induction L with
  | nil =>
    intro prev h _ _ _
    simp only [scanAux, resInBounds]
  | cons q rest ih =>
    obtain ⟨lbl, v⟩ := q
    intro prev h hpb hpr hmem
    have hv : low ≤ v ∧ v ≤ high := by
      simpa using hmem (lbl, v) (List.mem_cons_self _ _)
    rcases prev with _ | ⟨pl, pv⟩
    · simp only [scanAux]
      by_cases hle : h ≤ interpH s lo hi af lbl
      · rw [if_pos hle]
        simp only [resInBounds]
      · rw [if_neg hle]
        apply ih (some (lbl, v)) h
        · simp only [prevBelow]
          exact not_le.mp hle
        · simp only [prevInRange]
          exact hv
        · exact fun q hq => hmem q (List.mem_cons_of_mem _ hq)
    · simp only [prevBelow] at hpb
      simp only [prevInRange] at hpr
      simp only [scanAux]
      by_cases hle : h ≤ interpH s lo hi af lbl
      · rw [if_pos hle]
        have hd : 0 < interpH s lo hi af lbl - interpH s lo hi af pl := by
          linarith
        have hf0 : 0 < (h - interpH s lo hi af pl) /
            (interpH s lo hi af lbl - interpH s lo hi af pl) :=
          div_pos (by linarith) hd
        have hf1 : (h - interpH s lo hi af pl) /
            (interpH s lo hi af lbl - interpH s lo hi af pl) ≤ 1 :=
          (div_le_one hd).mpr (by linarith)
        have hel : low ≤ pv + (h - interpH s lo hi af pl) /
            (interpH s lo hi af lbl - interpH s lo hi af pl) * (v - pv) := by
          nlinarith [mul_nonneg (sub_nonneg.mpr hf1) (sub_nonneg.mpr hpr.1),
            mul_nonneg hf0.le (sub_nonneg.mpr hv.1)]
        have heh : pv + (h - interpH s lo hi af pl) /
            (interpH s lo hi af lbl - interpH s lo hi af pl) * (v - pv) ≤
            high := by
          nlinarith [mul_nonneg (sub_nonneg.mpr hf1) (sub_nonneg.mpr hpr.2),
            mul_nonneg hf0.le (sub_nonneg.mpr hv.2)]
        simp only [resInBounds]
        constructor
        · rw [hkl]
          exact int_div_le_roundTenth (by rw [← hkl]; exact hel)
        · rw [hkh]
          exact roundTenth_le_int_div (by rw [← hkh]; exact heh)
      · rw [if_neg hle]
        apply ih (some (lbl, v)) h
        · simp only [prevBelow]
          exact not_le.mp hle
        · simp only [prevInRange]
          exact hv
        · exact fun q hq => hmem q (List.mem_cons_of_mem _ hq)

/-- Claim C2: for every input, `calculatePercentile` returns either the
`<lowest` string, the `>highest` string, or a numeric percentile string whose
value lies within `[lowestVal, highestVal]` of the chosen standard — never an
unprefixed numeric value outside the standard's percentile range. -/
theorem calculatePercentile_range (ds : GrowthData) (std : Standard)
    (g : Gender) (am h : ℚ) :
    calculatePercentile ds std g am h = "<" ++ lowLabel std ++ "th" ∨
    calculatePercentile ds std g am h = ">" ++ highLabel std ++ "th" ∨
    ∃ q : ℚ, lowestVal std ≤ q ∧ q ≤ highestVal std ∧
      calculatePercentile ds std g am h = renderNum q ++ "th" := by
  have hmem : ∀ q ∈ percList std,
      lowestVal std ≤ q.2 ∧ q.2 ≤ highestVal std := by
    cases std <;> intro q hq <;> fin_cases hq <;>
      norm_num [lowestVal, highestVal]
  have hb : resInBounds (lowestVal std) (highestVal std)
      (calcPercentileR ds std g am h) := by
    cases std with
    | who_cdc =>
      simp only [calcPercentileR]
      exact scanAux_bounds _ _ _ _ _ _ 30 970 (by norm_num [lowestVal])
        (by norm_num [highestVal]) (percList Standard.who_cdc) none h
        trivial trivial hmem
    | hk2020 =>
      simp only [calcPercentileR]
      exact scanAux_bounds _ _ _ _ _ _ 4 996 (by norm_num [lowestVal])
        (by norm_num [highestVal]) (percList Standard.hk2020) none h
        trivial trivial hmem
  rcases hres : calcPercentileR ds std g am h with _ | q | _
  · left
    simp only [calculatePercentile, hres, renderPRes]
  · right; right
    rw [hres] at hb
    simp only [resInBounds] at hb
    exact ⟨q, hb.1, hb.2, by simp only [calculatePercentile, hres, renderPRes]⟩
  · right; left
    simp only [calculatePercentile, hres, renderPRes]

/-- Claim C3: for a fixed standard, gender and age, on a dataset whose
percentile curves satisfy the section 3 monotonicity invariant, a larger
height never yields a smaller percentile result (with `<lowest` below every
numeric value and `>highest` above every numeric value). -/
theorem calculatePercentile_height_mono (ds : GrowthData) (std : Standard)
    (g : Gender) (am h1 h2 : ℚ) (hinv : monotoneCurves std (ds std g))
    (hle : h1 ≤ h2) :
    presLE (calcPercentileR ds std g am h1)
      (calcPercentileR ds std g am h2) = true := by
  have hpw : List.Pairwise (fun a b : String × ℚ => a.2 ≤ b.2)
      (percList std) := by
    cases std <;> norm_num [percList, List.pairwise_cons]
  simp only [calcPercentileR]
  exact scanAux_mono _ _ _ _ (percList std) none h1 h2 hle trivial trivial hpw

/-- Witness for Claim C3 on a concrete dataset and pair of heights. -/
theorem calculatePercentile_height_mono_witness :
    presLE (calcPercentileR exDS Standard.who_cdc Gender.boy 0 30)
      (calcPercentileR exDS Standard.who_cdc Gender.boy 0 60) = true :=
  calculatePercentile_height_mono exDS Standard.who_cdc Gender.boy 0 30 60
    (by
      unfold monotoneCurves
      intro j hj
      norm_num [percList, List.chain'_cons, exDS, exSeries, exHeights])
    (by norm_num)

/-- The bracket selected for age 6 months on the two-age example series. -/
lemma exBracket2 : findBracket exSeries2 6 = (0, 1) := by decide

/-- Claim C10: when the stored heights at both selected bracket indices are
strictly increasing across the standard's ordered percentile labels and
`ageMonths` lies within the bracket's age range, the divisor
`interpolatedHeight - prevInterpolatedHeight` is nonzero whenever the
interpolation branch is reached, so the numeric percentile is a well-defined
finite rational. -/
theorem calcPercentile_denom_nonzero (ds : GrowthData) (std : Standard)
    (g : Gender) (am h : ℚ)
    (hs1 : List.Chain' (· < ·) ((percList std).map
      (fun p => (ds std g).height p.1 (findBracket (ds std g) am).1)))
    (hs2 : List.Chain' (· < ·) ((percList std).map
      (fun p => (ds std g).height p.1 (findBracket (ds std g) am).2)))
    (hin1 : (ds std g).age (findBracket (ds std g) am).1 ≤ am)
    (hin2 : am ≤ (ds std g).age (findBracket (ds std g) am).2) :
    calcDenomOK ds std g am h = true := by
  simp only [calcDenomOK]
  exact scanDenomOK_true _ _ _ _ (percList std) none h trivial

/-- Witness for Claim C10 on a strictly increasing concrete dataset. -/
theorem calcPercentile_denom_nonzero_witness :
    calcDenomOK exDS2 Standard.who_cdc Gender.boy 6 50 = true :=
  calcPercentile_denom_nonzero exDS2 Standard.who_cdc Gender.boy 6 50
    (by
      simp only [exDS2, exBracket2]
      norm_num [percList, List.chain'_cons, exSeries2, exHeights2])
    (by
      simp only [exDS2, exBracket2]
      norm_num [percList, List.chain'_cons, exSeries2, exHeights2])
    (by simp only [exDS2, exBracket2]; norm_num [exSeries2])
    (by simp only [exDS2, exBracket2]; norm_num [exSeries2])

/-! ## Exact-p50 behaviour (Claim C1) -/

lemma scanAux_cons_none_neg {s : GrowthSeries} {lo hi : ℕ} {af h : ℚ}
    {lbl : String} {v : ℚ} {rest : List (String × ℚ)}
    (hx : ¬ h ≤ interpH s lo hi af lbl) :
    scanAux s lo hi af h ((lbl, v) :: rest) none =
      scanAux s lo hi af h rest (some (lbl, v)) := by
  simp only [scanAux]
  rw [if_neg hx]

lemma scanAux_cons_some_neg {s : GrowthSeries} {lo hi : ℕ} {af h : ℚ}
    {lbl plbl : String} {v pv : ℚ} {rest : List (String × ℚ)}
    (hx : ¬ h ≤ interpH s lo hi af lbl) :
    scanAux s lo hi af h ((lbl, v) :: rest) (some (plbl, pv)) =
      scanAux s lo hi af h rest (some (lbl, v)) := by
  simp only [scanAux]
  rw [if_neg hx]

lemma scanAux_cons_some_pos {s : GrowthSeries} {lo hi : ℕ} {af h : ℚ}
    {lbl plbl : String} {v pv : ℚ} {rest : List (String × ℚ)}
    (hx : h ≤ interpH s lo hi af lbl) :
    scanAux s lo hi af h ((lbl, v) :: rest) (some (plbl, pv)) =
      PRes.value (roundTenth (pv +
        (h - interpH s lo hi af plbl) /
          (interpH s lo hi af lbl - interpH s lo hi af plbl) * (v - pv))) := by
  simp only [scanAux]
  rw [if_pos hx]

lemma renderNum_50 : renderNum 50 = "50" := by
  have h1 : ((50 : ℚ) * 10).num = 500 := by norm_num
  simp only [renderNum, h1]
  decide

lemma renderNum_25 : renderNum 25 = "25" := by
  have h1 : ((25 : ℚ) * 10).num = 250 := by norm_num
  simp only [renderNum, h1]
  decide

/-- When the interpolated curves below `p50` are strictly ordered, scanning
the WHO/CDC labels at exactly the interpolated `p50` height stops at `p50`
with value 50. -/
lemma scan_p50_who (s : GrowthSeries) (lo hi : ℕ) (af : ℚ)
    (c1 : interpH s lo hi af ("p3") < interpH s lo hi af ("p10"))
    (c2 : interpH s lo hi af ("p10") < interpH s lo hi af ("p25"))
    (c3 : interpH s lo hi af ("p25") < interpH s lo hi af ("p50")) :
    scanAux s lo hi af (interpH s lo hi af ("p50"))
      (percList Standard.who_cdc) none = PRes.value 50 := by
  have n1 : ¬ interpH s lo hi af ("p50") ≤ interpH s lo hi af ("p3") :=
    not_le.mpr (by linarith)
  have n2 : ¬ interpH s lo hi af ("p50") ≤ interpH s lo hi af ("p10") :=
    not_le.mpr (by linarith)
  have n3 : ¬ interpH s lo hi af ("p50") ≤ interpH s lo hi af ("p25") :=
    not_le.mpr c3
  simp only [percList]
  rw [scanAux_cons_none_neg n1, scanAux_cons_some_neg n2,
    scanAux_cons_some_neg n3, scanAux_cons_some_pos (le_refl _)]
  rw [div_self (sub_ne_zero.mpr (ne_of_gt c3))]
  norm_num [roundTenth, jsRound]

/-- When the interpolated curves below `p50` are strictly ordered, scanning
the HK2020 labels at exactly the interpolated `p50` height stops at `p50`
with value 50. -/
lemma scan_p50_hk (s : GrowthSeries) (lo hi : ℕ) (af : ℚ)
    (c1 : interpH s lo hi af ("p0_4") < interpH s lo hi af ("p2"))
    (c2 : interpH s lo hi af ("p2") < interpH s lo hi af ("p9"))
    (c3 : interpH s lo hi af ("p9") < interpH s lo hi af ("p25"))
    (c4 : interpH s lo hi af ("p25") < interpH s lo hi af ("p50")) :
    scanAux s lo hi af (interpH s lo hi af ("p50"))
      (percList Standard.hk2020) none = PRes.value 50 := by
  have n1 : ¬ interpH s lo hi af ("p50") ≤ interpH s lo hi af ("p0_4") :=
    not_le.mpr (by linarith)
  have n2 : ¬ interpH s lo hi af ("p50") ≤ interpH s lo hi af ("p2") :=
    not_le.mpr (by linarith)
  have n3 : ¬ interpH s lo hi af ("p50") ≤ interpH s lo hi af ("p9") :=
    not_le.mpr (by linarith)
  have n4 : ¬ interpH s lo hi af ("p50") ≤ interpH s lo hi af ("p25") :=
    not_le.mpr c4
  simp only [percList]
  rw [scanAux_cons_none_neg n1, scanAux_cons_some_neg n2,
    scanAux_cons_some_neg n3, scanAux_cons_some_neg n4,
    scanAux_cons_some_pos (le_refl _)]
  rw [div_self (sub_ne_zero.mpr (ne_of_gt c4))]
  norm_num [roundTenth, jsRound]

/-- Claim C1 (amended): if additionally the percentile curves are strictly
increasing (not merely non-decreasing), an in-domain height equal to the
interpolated `p50` height yields exactly `"50th"`. -/
theorem calculatePercentile_p50_amended (ds : GrowthData) (std : Standard)
    (g : Gender) (am h : ℚ)
    (hn : 2 ≤ (ds std g).numAges)
    (hag : agesSorted (ds std g))
    (hsc : strictCurves std (ds std g))
    (hlo : (ds std g).age 0 ≤ am)
    (hhi : am ≤ (ds std g).age ((ds std g).numAges - 1))
    (hh : h = interpAtAge (ds std g) am ("p50")) :
    calculatePercentile ds std g am h = "50th" := by
  obtain ⟨j, hij, hjk, heq, hja, haj⟩ :=
    bracketAux_found (ds std g) am ((ds std g).numAges - 1) 0 (by omega) hlo
      (by simpa using hhi)
  have heqF : findBracket (ds std g) am = (j, j + 1) := by
    simpa [findBracket] using heq
  have hj1 : j + 1 < (ds std g).numAges := by omega
  have hjlt : j < (ds std g).numAges := by omega
  have hagej : (ds std g).age j < (ds std g).age (j + 1) := hag j hjlt hj1
  have hafe : ageFactorOf (ds std g) j (j + 1) am =
      (am - (ds std g).age j) / ((ds std g).age (j + 1) - (ds std g).age j) := by
    unfold ageFactorOf
    rw [if_neg (Nat.succ_ne_self j)]
  have haf0 : 0 ≤ ageFactorOf (ds std g) j (j + 1) am := by
    rw [hafe]
    exact div_nonneg (by linarith) (by linarith)
  have haf1 : ageFactorOf (ds std g) j (j + 1) am ≤ 1 := by
    rw [hafe]
    exact (div_le_one (by linarith)).mpr (by linarith)
  have hhe : h = interpH (ds std g) j (j + 1)
      (ageFactorOf (ds std g) j (j + 1) am) ("p50") := by
    rw [hh]
    simp only [interpAtAge, heqF]
  have hs1 := hsc j hjlt
  have hs2 := hsc (j + 1) hj1
  rw [hhe]
  simp only [calculatePercentile, calcPercentileR, heqF]
  cases std with
  | who_cdc =>
    simp only [percList, List.map_cons, List.map_nil, List.chain'_cons,
      List.chain'_singleton, and_true] at hs1 hs2
    have c1 := interpH_lt (ds Standard.who_cdc g) j (j + 1) _ ("p3") ("p10")
      haf0 haf1 hs1.1 hs2.1
    have c2 := interpH_lt (ds Standard.who_cdc g) j (j + 1) _ ("p10") ("p25")
      haf0 haf1 hs1.2.1 hs2.2.1
    have c3 := interpH_lt (ds Standard.who_cdc g) j (j + 1) _ ("p25") ("p50")
      haf0 haf1 hs1.2.2.1 hs2.2.2.1
    rw [scan_p50_who _ _ _ _ c1 c2 c3]
    simp only [renderPRes, renderNum_50]
    rfl
  | hk2020 =>
    simp only [percList, List.map_cons, List.map_nil, List.chain'_cons,
      List.chain'_singleton, and_true] at hs1 hs2
    have c1 := interpH_lt (ds Standard.hk2020 g) j (j + 1) _ ("p0_4") ("p2")
      haf0 haf1 hs1.1 hs2.1
    have c2 := interpH_lt (ds Standard.hk2020 g) j (j + 1) _ ("p2") ("p9")
      haf0 haf1 hs1.2.1 hs2.2.1
    have c3 := interpH_lt (ds Standard.hk2020 g) j (j + 1) _ ("p9") ("p25")
      haf0 haf1 hs1.2.2.1 hs2.2.2.1
    have c4 := interpH_lt (ds Standard.hk2020 g) j (j + 1) _ ("p25") ("p50")
      haf0 haf1 hs1.2.2.2.1 hs2.2.2.2.1
    rw [scan_p50_hk _ _ _ _ c1 c2 c3 c4]
    simp only [renderPRes, renderNum_50]
    rfl

/-- Claim C1 counterexample: `exSeries` satisfies the section 3 invariants as
written (ages strictly increasing, curves non-decreasing) and has
`p25 = p50 = 60` at every age; at age 0 months with height exactly the
interpolated `p50` height (60), `calculatePercentile` returns `"25th"`, not
`"50th"`. -/
theorem calculatePercentile_p50_cex :
    seriesInvariants Standard.who_cdc exSeries ∧
    seriesInvariants Standard.hk2020 exSeries ∧
    exSeries.age 0 ≤ 0 ∧ (0 : ℚ) ≤ exSeries.age (exSeries.numAges - 1) ∧
    interpAtAge exSeries 0 ("p50") = 60 ∧
    calculatePercentile exDS Standard.who_cdc Gender.boy 0 60 = "25th" ∧
    calculatePercentile exDS Standard.who_cdc Gender.boy 0 60 ≠ "50th" := by
  have hb : findBracket exSeries 0 = (0, 1) := by decide
  have haf : ageFactorOf exSeries 0 1 0 = 0 := by
    norm_num [ageFactorOf, exSeries]
  have e3 : interpH exSeries 0 1 0 ("p3") = 40 := by
    norm_num [interpH, exSeries, exHeights]
  have e10 : interpH exSeries 0 1 0 ("p10") = 50 := by
    norm_num [interpH, exSeries, exHeights]
  have e25 : interpH exSeries 0 1 0 ("p25") = 60 := by
    norm_num [interpH, exSeries, exHeights]
  have hmain : calculatePercentile exDS Standard.who_cdc Gender.boy 0 60 =
      "25th" := by
    simp only [calculatePercentile, calcPercentileR, exDS, hb, haf, percList]
    rw [scanAux_cons_none_neg (by rw [e3]; norm_num),
      scanAux_cons_some_neg (by rw [e10]; norm_num),
      scanAux_cons_some_pos (le_of_eq e25.symm)]
    rw [e10, e25]
    norm_num [roundTenth, jsRound]
    simp only [renderPRes, renderNum_25]
    rfl
  refine ⟨?_, ?_, by norm_num [exSeries], by norm_num [exSeries], ?_, hmain,
    by rw [hmain]; decide⟩
  · constructor
    · intro i hi hi1
      simp only [exSeries] at hi1
      have hi0 : i = 0 := by omega
      subst hi0
      norm_num [exSeries]
    · intro j hj
      norm_num [percList, List.chain'_cons, exSeries, exHeights]
  · constructor
    · intro i hi hi1
      simp only [exSeries] at hi1
      have hi0 : i = 0 := by omega
      subst hi0
      norm_num [exSeries]
    · intro j hj
      norm_num [percList, List.chain'_cons, exSeries, exHeights]
  · simp only [interpAtAge, hb, haf]
    norm_num [interpH, exSeries, exHeights]

/-- Witness for the amended Claim C1 on a strictly increasing dataset. -/
theorem calculatePercentile_p50_amended_witness :
    calculatePercentile exDS2 Standard.who_cdc Gender.boy 6 60 = "50th" :=
  calculatePercentile_p50_amended exDS2 Standard.who_cdc Gender.boy 6 60
    (by norm_num [exDS2, exSeries2])
    (by
      intro i hi hi1
      simp only [exDS2, exSeries2] at hi1
      have hi0 : i = 0 := by omega
      subst hi0
      norm_num [exDS2, exSeries2])
    (by
      intro j hj
      norm_num [percList, List.chain'_cons, exDS2, exSeries2, exHeights2])
    (by norm_num [exDS2, exSeries2])
    (by norm_num [exDS2, exSeries2])
    (by
      simp only [exDS2, interpAtAge, exBracket2]
      norm_num [ageFactorOf, interpH, exSeries2, exHeights2])
